import Mathlib

/-!
Verification development for the rename-files-service utility
(`src/index.ts`).  The TypeScript program is shallowly embedded:
JavaScript strings become `List Char`, filesystem paths become
normalized segment lists, the asynchronous filesystem calls become
oracles packaged in an environment record, and the `for` loop of the
rename batch becomes a structural recursion that threads the same
counters the source threads.
-/

namespace RenameService

/-- JavaScript strings are modelled as lists of characters. -/
abbrev Str := List Char

/-- Filesystem paths are modelled as normalized absolute segment lists. -/
abbrev FsPath := List Str

/-- Character class `[0-9a-fA-F]` used by the regular expression of `isUUID`
(`src/index.ts` line 36). -/
def isHexDigit (c : Char) : Bool :=
  ('0' ≤ c && c ≤ '9') || ('a' ≤ c && c ≤ 'f') || ('A' ≤ c && c ≤ 'F')

/-- Matches `[0-9a-fA-F]{n}` as a prefix of the character list and returns
the remaining characters, failing when a non-hex character or the end of
the input is reached too early. -/
def hexRun : Nat → Str → Option Str
  | 0, cs => some cs
  | _ + 1, [] => none
  | n + 1, c :: cs => if isHexDigit c then hexRun n cs else none

/-- `isUUID` (`src/index.ts` lines 35-41): the anchored regular expression
`^[0-9a-fA-F]{8}-[0-9a-fA-F]{4}-[0-9a-fA-F]{4}-[0-9a-fA-F]{4}-[0-9a-fA-F]{12}$`
transcribed as a matcher over the character list. -/
def isUUID (s : Str) : Bool :=
  match hexRun 8 s with
  | some ('-' :: cs1) =>
    match hexRun 4 cs1 with
    | some ('-' :: cs2) =>
      match hexRun 4 cs2 with
      | some ('-' :: cs3) =>
        match hexRun 4 cs3 with
        | some ('-' :: cs4) =>
          match hexRun 12 cs4 with
          | some [] => true
          | _ => false
        | _ => false
      | _ => false
    | _ => false
  | _ => false

/-- Nibble to lowercase hexadecimal character, as the uuid package's
byte-to-hex table (core's `Nat.digitChar` maps 0-15 to `0`-`f`). -/
def hexDigit (n : Nat) : Char := Nat.digitChar (n % 16)

/-- One byte rendered as two lowercase hexadecimal characters. -/
def byteHex (b : Nat) : Str := [hexDigit (b / 16), hexDigit b]

/-- The `uuid` package's `v4()`: sixteen random bytes (supplied here by the
oracle `r`, reduced modulo 256 as bytes), with the version nibble of byte 6
forced to `4` (`(b & 0x0f) | 0x40`) and the variant bits of byte 8 forced to
`10xxxxxx` (`(b & 0x3f) | 0x80`), rendered as lowercase hex in the canonical
8-4-4-4-12 grouping. -/
def uuidV4 (r : Nat → Nat) : Str :=
  let b : Nat → Nat := fun i => r i % 256
  byteHex (b 0) ++ byteHex (b 1) ++ byteHex (b 2) ++ byteHex (b 3) ++
  '-' :: (byteHex (b 4) ++ byteHex (b 5) ++
  '-' :: (byteHex (b 6 % 16 + 64) ++ byteHex (b 7) ++
  '-' :: (byteHex (b 8 % 64 + 128) ++ byteHex (b 9) ++
  '-' :: (byteHex (b 10) ++ byteHex (b 11) ++ byteHex (b 12) ++
          byteHex (b 13) ++ byteHex (b 14) ++ byteHex (b 15)))))

/-- `getNewFilename` (`src/index.ts` lines 26-28): a fresh identifier
concatenated with the original file extension.  The random bytes of the
uuid call are passed explicitly. -/
def getNewFilename (r : Nat → Nat) (fileExtension : Str) : Str :=
  uuidV4 r ++ fileExtension

/-- Splits a name at its last dot: returns the part before the dot and the
part after it (the dot itself excluded), or `none` when the name has no dot. -/
def splitOnLastDot : Str → Option (Str × Str)
  | [] => none
  | c :: cs =>
    match splitOnLastDot cs with
    | some (pre, ext) => some (c :: pre, ext)
    | none => if c = '.' then some ([], cs) else none

/-- Node's `path.extname` on a bare directory-entry name (no separators):
the suffix starting at the last dot; empty when there is no dot, when the
only dot is the leading character (as in `.gitignore`), or for the literal
name `..`. -/
def extname (b : Str) : Str :=
  match splitOnLastDot b with
  | none => []
  | some (pre, ext) =>
    if pre = [] then []
    else if b = ['.', '.'] then []
    else '.' :: ext

/-- Node's `path.parse(b).name` on a bare directory-entry name: the name
with the `extname` suffix removed. -/
def parseName (b : Str) : Str := b.take (b.length - (extname b).length)

/-- `path.join(dirname, "../", directoryName)` on a normalized absolute
segment path: one level up from the program's own location, then down into
`directoryName` (`src/index.ts` line 49). -/
def pathJoinUp (dirname : FsPath) (directoryName : Str) : FsPath :=
  dirname.dropLast ++ [directoryName]

/-- Oracles standing for the runtime environment: the program's location
(`__dirname`), the `fs.stat(..).isDirectory()` check collapsed to a boolean
per path (stat failures already mapped to `false` by the `.catch` of
`src/index.ts` line 56), the `fs.readdir` listing per path, the random
bytes feeding each uuid call (`rng k i` is byte `i` of call `k`), and the
injected failure of each `fs.rename` attempt, numbered in attempt order. -/
structure Env where
  dirname : FsPath
  isDir : FsPath → Bool
  listing : FsPath → Except Str (List Str)
  rng : Nat → Nat → Nat
  renameFails : Nat → Bool

/-- `getFiles` (`src/index.ts` lines 11-19): `fs.readdir`; on failure the
error is reported and re-thrown, i.e. it propagates to the caller as
`Except.error`. -/
def getFiles (env : Env) (directoryPath : FsPath) : Except Str (List Str) :=
  match env.listing directoryPath with
  | Except.ok fileNames => Except.ok fileNames
  | Except.error e => Except.error e

/-- Observable outcome of the rename loop over one listing snapshot:
the final entry names in snapshot order, the original names for which a
rename was attempted (in attempt order), the subset of those whose rename
failed, and the `done` counter. -/
structure LoopOut where
  finalNames : List Str
  attempts : List Str
  failed : List Str
  done : Nat
  deriving DecidableEq

/-- The `for` loop of `renameProcess` (`src/index.ts` lines 72-92),
expressed as structural recursion over the listing snapshot.  `k` counts
the rename attempts made so far and indexes both the uuid randomness and
the injected rename failures; skipped entries (`isUUID` base name) consume
neither.  A failed rename leaves the entry's name unchanged and is caught
by the per-entry handler; a successful rename replaces the name and
increments `done`. -/
def renameLoop (rng : Nat → Nat → Nat) (renameFails : Nat → Bool) :
    Nat → List Str → LoopOut
  | _, [] => ⟨[], [], [], 0⟩
  | k, fileName :: rest =>
    if isUUID (parseName fileName) then
      let o := renameLoop rng renameFails k rest
      { o with finalNames := fileName :: o.finalNames }
    else
      let fileExtension := extname fileName
      let newFileName := getNewFilename (rng k) fileExtension
      if renameFails k then
        let o := renameLoop rng renameFails (k + 1) rest
        { finalNames := fileName :: o.finalNames,
          attempts := fileName :: o.attempts,
          failed := fileName :: o.failed,
          done := o.done }
      else
        let o := renameLoop rng renameFails (k + 1) rest
        { finalNames := newFileName :: o.finalNames,
          attempts := fileName :: o.attempts,
          failed := o.failed,
          done := o.done + 1 }

/-- Observable outcome of one `renameProcess` invocation. -/
structure RenameResult where
  directoryPath : FsPath
  earlyReturn : Bool
  listingRequested : Bool
  outerCaught : Bool
  total : Nat
  done : Nat
  attempts : List Str
  failed : List Str
  finalNames : List Str
  deriving DecidableEq, Inhabited

/-- `renameProcess` (`src/index.ts` lines 48-98).  The body inside the
outer `try` either returns a result or raises the error re-thrown by
`getFiles`; the outer `catch` (lines 95-97) turns any such error into a
reported, normally-returned outcome, so the function as a whole always
returns `Except.ok`. -/
def renameProcess (env : Env) (directoryName : Str) : Except Str RenameResult :=
  let directoryPath := pathJoinUp env.dirname directoryName
  let body : Except Str RenameResult :=
    if env.isDir directoryPath = false then
      Except.ok { directoryPath := directoryPath, earlyReturn := true,
                  listingRequested := false, outerCaught := false,
                  total := 0, done := 0, attempts := [], failed := [],
                  finalNames := [] }
    else
      match getFiles env directoryPath with
      | Except.error e => Except.error e
      | Except.ok fileNames =>
        let o := renameLoop env.rng env.renameFails 0 fileNames
        Except.ok { directoryPath := directoryPath, earlyReturn := false,
                    listingRequested := true, outerCaught := false,
                    total := fileNames.length, done := o.done,
                    attempts := o.attempts, failed := o.failed,
                    finalNames := o.finalNames }
  match body with
  | Except.ok r => Except.ok r
  | Except.error _ =>
    Except.ok { directoryPath := directoryPath, earlyReturn := false,
                listingRequested := true, outerCaught := true,
                total := 0, done := 0, attempts := [], failed := [],
                finalNames := [] }

/-- The result record of a `renameProcess` run (total, since every error is
caught inside). -/
def runRenameProcess (env : Env) (directoryName : Str) : RenameResult :=
  match renameProcess env directoryName with
  | Except.ok r => r
  | Except.error _ => default

/-- `startRenameFilesService` (`src/index.ts` lines 104-106): the
zero-argument entry point runs the processor on the fixed name `files`. -/
def startRenameFilesService (env : Env) : Except Str RenameResult :=
  renameProcess env ("files".data)

/-- Observable outcome of `createEmptyFiles`: the `(fileName, content)`
pairs written, in creation order, and whether the missing-directory report
was emitted. -/
structure CreateResult where
  created : List (Str × Str)
  reportedMissing : Bool
  deriving DecidableEq

/-- The `for` loop of `createEmptyFiles` (`src/index.ts` lines 132-139):
with `m` iterations remaining and counter at `i`, writes the file named
`String(i) + fileExtension` with a single-space body. -/
def createFilesFrom (fileExtension : Str) : Nat → Nat → List (Str × Str)
  | _, 0 => []
  | i, m + 1 =>
    ((Nat.repr i).data ++ fileExtension, [' ']) ::
      createFilesFrom fileExtension (i + 1) m

/-- `createEmptyFiles` (`src/index.ts` lines 118-145): the same
directory-existence check as `renameProcess`, then `n` single-space file
writes named `0<ext>` onwards. -/
def createEmptyFiles (isDir : FsPath → Bool) (directoryPath : FsPath)
    (n : Nat) (fileExtension : Str) : CreateResult :=
  if isDir directoryPath = false then
    { created := [], reportedMissing := true }
  else
    { created := createFilesFrom fileExtension 0 n, reportedMissing := false }

/-- Modelled from the spec (§3): a hexadecimal digit, lowercase or
uppercase. -/
def specHexDigit (c : Char) : Prop :=
  ('0' ≤ c ∧ c ≤ '9') ∨ ('a' ≤ c ∧ c ≤ 'f') ∨ ('A' ≤ c ∧ c ≤ 'F')

/-- Modelled from the spec (§3): a 36-character hexadecimal string in
canonical 8-4-4-4-12 grouping.  Stated independently of `isUUID`, to be
compared with it. -/
def specIdentifier (s : Str) : Prop :=
  ∃ g1 g2 g3 g4 g5 : Str,
    g1.length = 8 ∧ g2.length = 4 ∧ g3.length = 4 ∧ g4.length = 4 ∧
    g5.length = 12 ∧
    (∀ c ∈ g1, specHexDigit c) ∧ (∀ c ∈ g2, specHexDigit c) ∧
    (∀ c ∈ g3, specHexDigit c) ∧ (∀ c ∈ g4, specHexDigit c) ∧
    (∀ c ∈ g5, specHexDigit c) ∧
    s = g1 ++ '-' :: (g2 ++ '-' :: (g3 ++ '-' :: (g4 ++ '-' :: g5)))

/-- The names a failure-free run gives to a block of consecutive
non-matching entries, when the first of them is the `k`-th rename attempt. -/
def freshNames (rng : Nat → Nat → Nat) : Nat → List Str → List Str
  | _, [] => []
  | k, f :: fs => getNewFilename (rng k) (extname f) :: freshNames rng (k + 1) fs

/-- Unfolding principle for `hexRun`: it succeeds exactly on a hex prefix of
the requested length, returning the rest. -/
theorem hexRun_eq_some_iff (n : Nat) (cs rest : Str) :
    hexRun n cs = some rest ↔
      ∃ g, g.length = n ∧ (∀ c ∈ g, isHexDigit c = true) ∧ cs = g ++ rest := by
  induction n generalizing cs with
  | zero =>
    simp only [hexRun, Option.some.injEq]
    constructor
    · rintro rfl
      exact ⟨[], rfl, by simp, rfl⟩
    · rintro ⟨g, hg, -, rfl⟩
      rw [List.length_eq_zero] at hg
      subst hg
      rfl
  | succ n ih =>
    cases cs with
    | nil =>
      simp only [hexRun]
      constructor
      · intro h
        exact absurd h (by simp)
      · rintro ⟨g, hg, -, heq⟩
        cases g with
        | nil => simp at hg
        | cons c g => simp at heq
    | cons c cs =>
      simp only [hexRun]
      by_cases hc : isHexDigit c = true
      · rw [if_pos hc, ih]
        constructor
        · rintro ⟨g, hlen, hhex, rfl⟩
          refine ⟨c :: g, by simp [hlen], ?_, rfl⟩
          intro x hx
          rcases List.mem_cons.mp hx with rfl | hx
          · exact hc
          · exact hhex x hx
        · rintro ⟨g, hlen, hhex, heq⟩
          cases g with
          | nil => simp at hlen
          | cons c' g =>
            simp only [List.cons_append, List.cons.injEq] at heq
            obtain ⟨rfl, rfl⟩ := heq
            exact ⟨g, by simpa using hlen,
              fun x hx => hhex x (List.mem_cons_of_mem _ hx), rfl⟩
      · rw [if_neg hc]
        constructor
        · intro h
          exact absurd h (by simp)
        · rintro ⟨g, hlen, hhex, heq⟩
          cases g with
          | nil => simp at hlen
          | cons c' g =>
            simp only [List.cons_append, List.cons.injEq] at heq
            obtain ⟨rfl, -⟩ := heq
            exact absurd (hhex c (by simp)) hc

/-- The matcher `isUUID` accepts exactly the five hex runs separated by dashes. -/
theorem isUUID_eq_true_iff_chain (s : Str) :
    isUUID s = true ↔ ∃ cs1 cs2 cs3 cs4,
      hexRun 8 s = some ('-' :: cs1) ∧ hexRun 4 cs1 = some ('-' :: cs2) ∧
      hexRun 4 cs2 = some ('-' :: cs3) ∧ hexRun 4 cs3 = some ('-' :: cs4) ∧
      hexRun 12 cs4 = some [] := by
  constructor
  · intro h
    unfold isUUID at h
    split at h
    next cs1 heq1 =>
      split at h
      next cs2 heq2 =>
        split at h
        next cs3 heq3 =>
          split at h
          next cs4 heq4 =>
            split at h
            next heq5 => exact ⟨cs1, cs2, cs3, cs4, heq1, heq2, heq3, heq4, heq5⟩
            next => simp at h
          next => simp at h
        next => simp at h
      next => simp at h
    next => simp at h
  · rintro ⟨cs1, cs2, cs3, cs4, h1, h2, h3, h4, h5⟩
    unfold isUUID
    simp only [h1, h2, h3, h4, h5]

/-- The spec's "hexadecimal digit" and the regex character class agree. -/
theorem specHexDigit_iff (c : Char) : specHexDigit c ↔ isHexDigit c = true := by
  simp only [specHexDigit, isHexDigit, Bool.or_eq_true, Bool.and_eq_true,
    decide_eq_true_eq]
  tauto

/-- Core equivalence behind C7: the source predicate `isUUID` recognizes
exactly the spec's identifiers. -/
theorem isUUID_iff_specIdentifier (s : Str) :
    isUUID s = true ↔ specIdentifier s := by
  rw [isUUID_eq_true_iff_chain]
  constructor
  · rintro ⟨cs1, cs2, cs3, cs4, h1, h2, h3, h4, h5⟩
    rw [hexRun_eq_some_iff] at h1 h2 h3 h4 h5
    obtain ⟨g1, hl1, hx1, rfl⟩ := h1
    obtain ⟨g2, hl2, hx2, e2⟩ := h2
    obtain ⟨g3, hl3, hx3, e3⟩ := h3
    obtain ⟨g4, hl4, hx4, e4⟩ := h4
    obtain ⟨g5, hl5, hx5, e5⟩ := h5
    refine ⟨g1, g2, g3, g4, g5, hl1, hl2, hl3, hl4, hl5,
      fun c hc => (specHexDigit_iff c).mpr (hx1 c hc),
      fun c hc => (specHexDigit_iff c).mpr (hx2 c hc),
      fun c hc => (specHexDigit_iff c).mpr (hx3 c hc),
      fun c hc => (specHexDigit_iff c).mpr (hx4 c hc),
      fun c hc => (specHexDigit_iff c).mpr (hx5 c hc), ?_⟩
    rw [e2, e3, e4, e5]
    simp
  · rintro ⟨g1, g2, g3, g4, g5, hl1, hl2, hl3, hl4, hl5,
      hx1, hx2, hx3, hx4, hx5, rfl⟩
    refine ⟨g2 ++ '-' :: (g3 ++ '-' :: (g4 ++ '-' :: g5)),
      g3 ++ '-' :: (g4 ++ '-' :: g5), g4 ++ '-' :: g5, g5, ?_, ?_, ?_, ?_, ?_⟩
    · rw [hexRun_eq_some_iff]
      exact ⟨g1, hl1, fun c hc => (specHexDigit_iff c).mp (hx1 c hc), rfl⟩
    · rw [hexRun_eq_some_iff]
      exact ⟨g2, hl2, fun c hc => (specHexDigit_iff c).mp (hx2 c hc), rfl⟩
    · rw [hexRun_eq_some_iff]
      exact ⟨g3, hl3, fun c hc => (specHexDigit_iff c).mp (hx3 c hc), rfl⟩
    · rw [hexRun_eq_some_iff]
      exact ⟨g4, hl4, fun c hc => (specHexDigit_iff c).mp (hx4 c hc), rfl⟩
    · rw [hexRun_eq_some_iff]
      exact ⟨g5, hl5, fun c hc => (specHexDigit_iff c).mp (hx5 c hc), by simp⟩

/-- A spec identifier is exactly 36 characters long. -/
theorem specIdentifier_length (s : Str) (h : specIdentifier s) :
    s.length = 36 := by
  obtain ⟨g1, g2, g3, g4, g5, hl1, hl2, hl3, hl4, hl5, -, -, -, -, -, rfl⟩ := h
  simp [hl1, hl2, hl3, hl4, hl5]

/-- Every nibble renders to a character of the regex character class. -/
theorem isHexDigit_hexDigit (n : Nat) : isHexDigit (hexDigit n) = true := by
  have h : n % 16 < 16 := Nat.mod_lt _ (by norm_num)
  have hall : ∀ m : Fin 16, isHexDigit (Nat.digitChar m.1) = true := by decide
  exact hall ⟨n % 16, h⟩

/-- Both characters of a rendered byte are hex characters. -/
theorem byteHex_hex (b : Nat) : ∀ c ∈ byteHex b, isHexDigit c = true := by
  intro c hc
  simp only [byteHex, List.mem_cons, List.not_mem_nil, or_false] at hc
  rcases hc with rfl | rfl <;> exact isHexDigit_hexDigit _

/-- A generated identifier has the spec's 8-4-4-4-12 hex shape. -/
theorem specIdentifier_uuidV4 (r : Nat → Nat) : specIdentifier (uuidV4 r) := by
  refine ⟨byteHex (r 0 % 256) ++ byteHex (r 1 % 256) ++ byteHex (r 2 % 256) ++
      byteHex (r 3 % 256),
    byteHex (r 4 % 256) ++ byteHex (r 5 % 256),
    byteHex (r 6 % 256 % 16 + 64) ++ byteHex (r 7 % 256),
    byteHex (r 8 % 256 % 64 + 128) ++ byteHex (r 9 % 256),
    byteHex (r 10 % 256) ++ byteHex (r 11 % 256) ++ byteHex (r 12 % 256) ++
      byteHex (r 13 % 256) ++ byteHex (r 14 % 256) ++ byteHex (r 15 % 256),
    by simp [byteHex], by simp [byteHex], by simp [byteHex], by simp [byteHex],
    by simp [byteHex], ?_, ?_, ?_, ?_, ?_, ?_⟩
  · intro c hc
    simp only [List.mem_append] at hc
    rcases hc with ((hc | hc) | hc) | hc <;>
      exact (specHexDigit_iff c).mpr (byteHex_hex _ c hc)
  · intro c hc
    simp only [List.mem_append] at hc
    rcases hc with hc | hc <;>
      exact (specHexDigit_iff c).mpr (byteHex_hex _ c hc)
  · intro c hc
    simp only [List.mem_append] at hc
    rcases hc with hc | hc <;>
      exact (specHexDigit_iff c).mpr (byteHex_hex _ c hc)
  · intro c hc
    simp only [List.mem_append] at hc
    rcases hc with hc | hc <;>
      exact (specHexDigit_iff c).mpr (byteHex_hex _ c hc)
  · intro c hc
    simp only [List.mem_append] at hc
    rcases hc with ((((hc | hc) | hc) | hc) | hc) | hc <;>
      exact (specHexDigit_iff c).mpr (byteHex_hex _ c hc)
  · simp [uuidV4, List.append_assoc]

/-- Every character of a spec identifier is a hex character or a dash. -/
theorem specIdentifier_chars (s : Str) (h : specIdentifier s) :
    ∀ c ∈ s, isHexDigit c = true ∨ c = '-' := by
  obtain ⟨g1, g2, g3, g4, g5, -, -, -, -, -, hx1, hx2, hx3, hx4, hx5, rfl⟩ := h
  intro c hc
  simp only [List.mem_append, List.mem_cons] at hc
  rcases hc with hc | rfl | hc | rfl | hc | rfl | hc | rfl | hc
  · exact Or.inl ((specHexDigit_iff c).mp (hx1 c hc))
  · exact Or.inr rfl
  · exact Or.inl ((specHexDigit_iff c).mp (hx2 c hc))
  · exact Or.inr rfl
  · exact Or.inl ((specHexDigit_iff c).mp (hx3 c hc))
  · exact Or.inr rfl
  · exact Or.inl ((specHexDigit_iff c).mp (hx4 c hc))
  · exact Or.inr rfl
  · exact Or.inl ((specHexDigit_iff c).mp (hx5 c hc))

/-- A generated identifier contains no dot. -/
theorem dot_not_mem_uuidV4 (r : Nat → Nat) : '.' ∉ uuidV4 r := by
  intro h
  rcases specIdentifier_chars _ (specIdentifier_uuidV4 r) '.' h with hx | hd
  · exact absurd hx (by decide)
  · exact absurd hd (by decide)

/-- A generated identifier is 36 characters long. -/
theorem uuidV4_length (r : Nat → Nat) : (uuidV4 r).length = 36 :=
  specIdentifier_length _ (specIdentifier_uuidV4 r)

/-- A generated identifier passes the `isUUID` test. -/
theorem isUUID_uuidV4 (r : Nat → Nat) : isUUID (uuidV4 r) = true :=
  (isUUID_iff_specIdentifier _).mpr (specIdentifier_uuidV4 r)

/-- `splitOnLastDot` fails exactly on dot-free names. -/
theorem splitOnLastDot_eq_none_iff (b : Str) :
    splitOnLastDot b = none ↔ '.' ∉ b := by
  induction b with
  | nil => simp [splitOnLastDot]
  | cons c cs ih =>
    simp only [splitOnLastDot]
    cases h : splitOnLastDot cs with
    | some pe =>
      obtain ⟨pre, ext⟩ := pe
      have hdot : '.' ∈ cs := by
        by_contra hnot
        rw [ih.mpr hnot] at h
        cases h
      simp [hdot]
    | none =>
      have hmem := ih.mp h
      by_cases hc : c = '.'
      · subst hc
        simp
      · simp only [List.mem_cons, not_or]
        constructor
        · intro hnone
          rw [if_neg hc] at hnone
          exact ⟨fun hcontra => hc hcontra.symm, hmem⟩
        · intro _
          rw [if_neg hc]

/-- When the suffix after the dot is dot-free, the dot found by
`splitOnLastDot` is that very dot. -/
theorem splitOnLastDot_append (u rest : Str) (h : '.' ∉ rest) :
    splitOnLastDot (u ++ '.' :: rest) = some (u, rest) := by
  induction u with
  | nil =>
    simp only [List.nil_append, splitOnLastDot]
    rw [(splitOnLastDot_eq_none_iff rest).mpr h]
    simp
  | cons c u ih =>
    simp only [List.cons_append, splitOnLastDot, List.append_eq, ih]

/-- The part after the last dot contains no dot. -/
theorem splitOnLastDot_no_dot_ext (b : Str) :
    ∀ pre ext, splitOnLastDot b = some (pre, ext) → '.' ∉ ext := by
  induction b with
  | nil => intro pre ext h; cases h
  | cons c cs ih =>
    intro pre ext h
    simp only [splitOnLastDot] at h
    cases hcs : splitOnLastDot cs with
    | some pe =>
      obtain ⟨pre', ext'⟩ := pe
      rw [hcs] at h
      simp only [Option.some.injEq, Prod.mk.injEq] at h
      obtain ⟨-, rfl⟩ := h
      exact ih pre' _ hcs
    | none =>
      rw [hcs] at h
      by_cases hc : c = '.'
      · rw [if_pos hc] at h
        simp only [Option.some.injEq, Prod.mk.injEq] at h
        obtain ⟨-, rfl⟩ := h
        exact (splitOnLastDot_eq_none_iff cs).mp hcs
      · rw [if_neg hc] at h
        cases h

/-- An extracted extension is empty, or a dot followed by a dot-free tail. -/
theorem extname_cases (b : Str) :
    extname b = [] ∨ ∃ rest, extname b = '.' :: rest ∧ '.' ∉ rest := by
  unfold extname
  cases h : splitOnLastDot b with
  | none => exact Or.inl rfl
  | some pe =>
    obtain ⟨pre, ext⟩ := pe
    by_cases h1 : pre = []
    · left
      simp [h1]
    · by_cases h2 : b = ['.', '.']
      · left
        simp [h1, h2]
      · right
        exact ⟨ext, by simp [h1, h2], splitOnLastDot_no_dot_ext b pre ext h⟩

/-- A dot-free name is its own base name. -/
theorem parseName_no_dot (u : Str) (hu : '.' ∉ u) : parseName u = u := by
  unfold parseName extname
  rw [(splitOnLastDot_eq_none_iff u).mpr hu]
  simp

/-- Appending a dot-free-tail extension to a dot-free name leaves the base
name intact. -/
theorem parseName_append_ext (u rest : Str) (hne : u ≠ [])
    (hne2 : u ++ '.' :: rest ≠ ['.', '.']) (hrest : '.' ∉ rest) :
    parseName (u ++ '.' :: rest) = u := by
  unfold parseName extname
  rw [splitOnLastDot_append u rest hrest]
  simp only [if_neg hne, if_neg hne2]
  have hlen : (u ++ '.' :: rest).length - ('.' :: rest).length = u.length := by
    simp only [List.length_append, List.length_cons]
    omega
  rw [hlen]
  exact List.take_left u ('.' :: rest)

/-- A new name built from a fresh identifier and a real extracted extension
has the identifier itself as base name. -/
theorem parseName_getNewFilename (rb : Nat → Nat) (f : Str) :
    parseName (getNewFilename rb (extname f)) = uuidV4 rb := by
  unfold getNewFilename
  rcases extname_cases f with h | ⟨rest, h, hrest⟩
  · rw [h, List.append_nil]
    exact parseName_no_dot _ (dot_not_mem_uuidV4 rb)
  · rw [h]
    refine parseName_append_ext _ _ ?_ ?_ hrest
    · intro hnil
      have h36 := uuidV4_length rb
      rw [hnil] at h36
      cases h36
    · intro heq
      have h36 := uuidV4_length rb
      have h2 := congrArg List.length heq
      simp only [List.length_append, List.length_cons, List.length_nil, h36] at h2
      omega

/-- Key idempotence fact: every name the rename step writes passes the skip
test of the next run. -/
theorem isUUID_parseName_getNewFilename (rb : Nat → Nat) (f : Str) :
    isUUID (parseName (getNewFilename rb (extname f))) = true := by
  rw [parseName_getNewFilename]
  exact isUUID_uuidV4 rb

/-- The loop attempts exactly the non-matching entries, in listing order,
whatever the injected failures are. -/
theorem renameLoop_attempts (rng : Nat → Nat → Nat) (fail : Nat → Bool)
    (l : List Str) : ∀ k, (renameLoop rng fail k l).attempts =
      l.filter (fun f => !(isUUID (parseName f))) := by
  induction l with
  | nil => intro k; rfl
  | cons f rest ih =>
    intro k
    by_cases hf : isUUID (parseName f) = true
    · simp [renameLoop, hf, ih k]
    · by_cases hk : fail k = true
      · simp [renameLoop, hf, hk, ih (k + 1)]
      · simp [renameLoop, hf, hk, ih (k + 1)]

/-- Successes and failures partition the attempts. -/
theorem renameLoop_done_failed (rng : Nat → Nat → Nat) (fail : Nat → Bool)
    (l : List Str) : ∀ k,
      (renameLoop rng fail k l).done + (renameLoop rng fail k l).failed.length =
        (renameLoop rng fail k l).attempts.length := by
  induction l with
  | nil => intro k; rfl
  | cons f rest ih =>
    intro k
    by_cases hf : isUUID (parseName f) = true
    · simpa [renameLoop, hf] using ih k
    · by_cases hk : fail k = true
      · have := ih (k + 1)
        simp only [renameLoop, hf, hk] at *
        simp at *
        omega
      · have := ih (k + 1)
        simp only [renameLoop, hf, hk] at *
        simp at *
        omega

/-- Every failed entry was an attempted entry. -/
theorem renameLoop_failed_subset (rng : Nat → Nat → Nat) (fail : Nat → Bool)
    (l : List Str) : ∀ k, ∀ f ∈ (renameLoop rng fail k l).failed,
      f ∈ (renameLoop rng fail k l).attempts := by
  induction l with
  | nil => intro k f hf; cases hf
  | cons g rest ih =>
    intro k f hf
    by_cases hg : isUUID (parseName g) = true
    · simp only [renameLoop, hg, if_true] at hf ⊢
      simpa using ih k f (by simpa using hf)
    · by_cases hk : fail k = true
      · simp [renameLoop, hg, hk] at hf ⊢
        rcases hf with rfl | hf
        · exact Or.inl rfl
        · exact Or.inr (ih (k + 1) f hf)
      · simp [renameLoop, hg, hk] at hf ⊢
        exact Or.inr (ih (k + 1) f hf)

/-- Positionally, an entry whose base name matches the identifier pattern is
left unchanged by the loop. -/
theorem renameLoop_skip (rng : Nat → Nat → Nat) (fail : Nat → Bool)
    (l : List Str) : ∀ k,
      List.Forall₂ (fun orig fin => isUUID (parseName orig) = true → fin = orig)
        l (renameLoop rng fail k l).finalNames := by
  induction l with
  | nil => intro k; exact List.Forall₂.nil
  | cons f rest ih =>
    intro k
    by_cases hf : isUUID (parseName f) = true
    · simp only [renameLoop, hf, if_true]
      exact List.Forall₂.cons (fun _ => rfl) (ih k)
    · by_cases hk : fail k = true
      · simp only [renameLoop, hf, hk, if_false, if_true]
        exact List.Forall₂.cons (fun _ => rfl) (ih (k + 1))
      · simp only [renameLoop, hf, hk, if_false]
        exact List.Forall₂.cons (fun hcontra => absurd hcontra hf) (ih (k + 1))

/-- A snapshot made only of matching entries is skipped wholesale. -/
theorem renameLoop_all_skip (rng : Nat → Nat → Nat) (fail : Nat → Bool)
    (l : List Str) : ∀ k, (∀ f ∈ l, isUUID (parseName f) = true) →
      renameLoop rng fail k l = ⟨l, [], [], 0⟩ := by
  induction l with
  | nil => intro k _; rfl
  | cons f rest ih =>
    intro k h
    have hf := h f (by simp)
    have hrest := ih k (fun g hg => h g (List.mem_cons_of_mem _ hg))
    simp [renameLoop, hf, hrest]

/-- A failure-free run over a snapshot of only non-matching entries renames
every entry to its fresh name and counts them all. -/
theorem renameLoop_fresh (rng : Nat → Nat → Nat) (fail : Nat → Bool)
    (h2 : ∀ m, fail m = false) (l : List Str) :
    ∀ k, (∀ f ∈ l, isUUID (parseName f) = false) →
      renameLoop rng fail k l = ⟨freshNames rng k l, l, [], l.length⟩ := by
  induction l with
  | nil => intro k _; rfl
  | cons f rest ih =>
    intro k h1
    have hf : ¬ isUUID (parseName f) = true := by
      simp [h1 f (by simp)]
    have hrest := ih (k + 1) (fun g hg => h1 g (List.mem_cons_of_mem _ hg))
    simp [renameLoop, hf, h2 k, hrest, freshNames]

/-- After a failure-free run, every final name passes the skip test. -/
theorem renameLoop_final_uuid (rng : Nat → Nat → Nat) (fail : Nat → Bool)
    (h2 : ∀ m, fail m = false) (l : List Str) :
    ∀ k, ∀ g ∈ (renameLoop rng fail k l).finalNames,
      isUUID (parseName g) = true := by
  induction l with
  | nil => intro k g hg; cases hg
  | cons f rest ih =>
    intro k g hg
    by_cases hf : isUUID (parseName f) = true
    · simp [renameLoop, hf] at hg
      rcases hg with rfl | hg
      · exact hf
      · exact ih k g hg
    · simp [renameLoop, hf, h2 k] at hg
      rcases hg with rfl | hg
      · exact isUUID_parseName_getNewFilename _ _
      · exact ih (k + 1) g hg

/-- `renameProcess` when the directory-existence check fails: the early
return with no listing and no attempts. -/
theorem renameProcess_missing (env : Env) (d : Str)
    (h : env.isDir (pathJoinUp env.dirname d) = false) :
    renameProcess env d = Except.ok
      { directoryPath := pathJoinUp env.dirname d, earlyReturn := true,
        listingRequested := false, outerCaught := false,
        total := 0, done := 0, attempts := [], failed := [],
        finalNames := [] } := by
  unfold renameProcess
  simp [h]

/-- `renameProcess` when the directory exists and listing succeeds: the
outcome of the loop over the snapshot. -/
theorem runRenameProcess_listing (env : Env) (d : Str) (entries : List Str)
    (hdir : env.isDir (pathJoinUp env.dirname d) = true)
    (hlist : env.listing (pathJoinUp env.dirname d) = Except.ok entries) :
    runRenameProcess env d =
      { directoryPath := pathJoinUp env.dirname d, earlyReturn := false,
        listingRequested := true, outerCaught := false,
        total := entries.length,
        done := (renameLoop env.rng env.renameFails 0 entries).done,
        attempts := (renameLoop env.rng env.renameFails 0 entries).attempts,
        failed := (renameLoop env.rng env.renameFails 0 entries).failed,
        finalNames := (renameLoop env.rng env.renameFails 0 entries).finalNames } := by
  unfold runRenameProcess renameProcess getFiles
  simp [hdir, hlist]

/-- `getFiles` re-raises the listing error to its caller. -/
theorem getFiles_error (env : Env) (p : FsPath) (e : Str)
    (hlist : env.listing p = Except.error e) :
    getFiles env p = Except.error e := by
  unfold getFiles
  rw [hlist]

/-- `renameProcess` when the directory exists but listing fails: the outer
handler catches the re-raised error, no attempt is made, and the operation
returns normally. -/
theorem renameProcess_listing_error (env : Env) (d : Str) (e : Str)
    (hdir : env.isDir (pathJoinUp env.dirname d) = true)
    (hlist : env.listing (pathJoinUp env.dirname d) = Except.error e) :
    renameProcess env d = Except.ok
      { directoryPath := pathJoinUp env.dirname d, earlyReturn := false,
        listingRequested := true, outerCaught := true,
        total := 0, done := 0, attempts := [], failed := [],
        finalNames := [] } := by
  unfold renameProcess getFiles
  simp [hdir, hlist]

/-- The resolved target path, on every control-flow path of the operation. -/
theorem runRenameProcess_directoryPath (env : Env) (d : Str) :
    (runRenameProcess env d).directoryPath = pathJoinUp env.dirname d := by
  unfold runRenameProcess renameProcess getFiles
  by_cases h : env.isDir (pathJoinUp env.dirname d) = false
  · simp [h]
  · cases hl : env.listing (pathJoinUp env.dirname d) <;> simp [h, hl]

/-- The creation loop, started at `i` with `m` files to go, writes the
decimal names `i<ext>` through `(i+m-1)<ext>`. -/
theorem createFilesFrom_eq (fileExtension : Str) :
    ∀ m i, createFilesFrom fileExtension i m =
      (List.range m).map
        (fun j => ((Nat.repr (i + j)).data ++ fileExtension, [' '])) := by
  intro m
  induction m with
  | zero => intro i; rfl
  | succ m ih =>
    intro i
    rw [List.range_succ_eq_map]
    simp only [List.map_cons, List.map_map, createFilesFrom]
    refine congrArg₂ _ (by simp) ?_
    rw [ih (i + 1)]
    refine congrArg₂ _ ?_ rfl
    funext j
    have harith : i + 1 + j = i + (j + 1) := by omega
    simp [Function.comp_apply, Nat.succ_eq_add_one, harith]

/-- C1: For a directory containing only entries whose base names do not
match the identifier pattern, a run with no injected rename failures ends
with every entry named a fresh identifier plus its extracted extension
(in listing order), the done counter equal to the original entry count,
every final name matching the identifier shape, and an extension-less
entry such as `report` named exactly the bare identifier with no trailing
characters. -/
theorem claim_C1_rename_all (env : Env) (d : Str) (entries : List Str)
    (hdir : env.isDir (pathJoinUp env.dirname d) = true)
    (hlist : env.listing (pathJoinUp env.dirname d) = Except.ok entries)
    (hnew : ∀ f ∈ entries, isUUID (parseName f) = false)
    (hok : ∀ k, env.renameFails k = false) :
    (runRenameProcess env d).finalNames = freshNames env.rng 0 entries ∧
    (runRenameProcess env d).done = entries.length ∧
    (runRenameProcess env d).total = entries.length ∧
    (∀ g ∈ (runRenameProcess env d).finalNames, isUUID (parseName g) = true) ∧
    (∀ rb : Nat → Nat, getNewFilename rb (extname ("report".data)) = uuidV4 rb) := by
  have hrun := runRenameProcess_listing env d entries hdir hlist
  have hloop := renameLoop_fresh env.rng env.renameFails hok entries 0 hnew
  refine ⟨?_, ?_, ?_, ?_, ?_⟩
  · rw [hrun]
    simp [hloop]
  · rw [hrun]
    simp [hloop]
  · rw [hrun]
  · intro g hg
    rw [hrun] at hg
    exact renameLoop_final_uuid env.rng env.renameFails hok entries 0 g hg
  · intro rb
    have hre : extname ("report".data) = [] := by decide
    rw [hre]
    simp [getNewFilename]

/-- Concrete environment for the C1 witness: two non-matching entries. -/
def envC1 : Env :=
  { dirname := ["app".data, "dist".data],
    isDir := fun _ => true,
    listing := fun _ => Except.ok ["report".data, "photo.jpg".data],
    rng := fun _ _ => 0,
    renameFails := fun _ => false }

/-- C1 instantiated at a concrete directory of two plain entries. -/
theorem claim_C1_witness :
    (runRenameProcess envC1 ("files".data)).finalNames =
      freshNames envC1.rng 0 ["report".data, "photo.jpg".data] ∧
    (runRenameProcess envC1 ("files".data)).done = 2 ∧
    (runRenameProcess envC1 ("files".data)).total = 2 ∧
    (∀ g ∈ (runRenameProcess envC1 ("files".data)).finalNames,
      isUUID (parseName g) = true) ∧
    (∀ rb : Nat → Nat, getNewFilename rb (extname ("report".data)) = uuidV4 rb) :=
  claim_C1_rename_all envC1 ("files".data) _ rfl rfl (by decide) (fun _ => rfl)

/-- C2: Every entry whose base name matches the identifier pattern is
skipped: its position in the directory is unchanged, it is never among the
attempted renames, and consequently no counter increment can stem from it
(the attempts are exactly the non-matching entries). -/
theorem claim_C2_skip_matching (env : Env) (d : Str) (entries : List Str)
    (hdir : env.isDir (pathJoinUp env.dirname d) = true)
    (hlist : env.listing (pathJoinUp env.dirname d) = Except.ok entries) :
    List.Forall₂ (fun orig fin => isUUID (parseName orig) = true → fin = orig)
      entries (runRenameProcess env d).finalNames ∧
    (runRenameProcess env d).attempts =
      entries.filter (fun f => !(isUUID (parseName f))) ∧
    (∀ f, isUUID (parseName f) = true →
      f ∉ (runRenameProcess env d).attempts) := by
  have hrun := runRenameProcess_listing env d entries hdir hlist
  refine ⟨?_, ?_, ?_⟩
  · rw [hrun]
    exact renameLoop_skip _ _ entries 0
  · rw [hrun]
    exact renameLoop_attempts _ _ entries 0
  · intro f hf hmem
    rw [hrun] at hmem
    rw [renameLoop_attempts _ _ entries 0] at hmem
    have hp := List.of_mem_filter hmem
    simp [hf] at hp

/-- Concrete environment for the C2 witness: one already-matching entry and
one plain entry. -/
def envC2 : Env :=
  { dirname := ["app".data, "dist".data],
    isDir := fun _ => true,
    listing := fun _ => Except.ok
      ["a1b2c3d4-e5f6-47a8-89b0-c1d2e3f4a5b6.png".data, "notes.txt".data],
    rng := fun _ _ => 0,
    renameFails := fun _ => false }

/-- C2 instantiated at a concrete directory with a matching entry. -/
theorem claim_C2_witness :
    List.Forall₂ (fun orig fin => isUUID (parseName orig) = true → fin = orig)
      ["a1b2c3d4-e5f6-47a8-89b0-c1d2e3f4a5b6.png".data, "notes.txt".data]
      (runRenameProcess envC2 ("files".data)).finalNames ∧
    (runRenameProcess envC2 ("files".data)).attempts =
      (["a1b2c3d4-e5f6-47a8-89b0-c1d2e3f4a5b6.png".data,
        "notes.txt".data]).filter (fun f => !(isUUID (parseName f))) ∧
    (∀ f, isUUID (parseName f) = true →
      f ∉ (runRenameProcess envC2 ("files".data)).attempts) :=
  claim_C2_skip_matching envC2 ("files".data) _ rfl rfl

/-- C3: Every generated name's base name matches the skip pattern, so a
second run over the output of a failure-free first run skips every entry,
attempts no rename, ends with done equal to zero, and leaves the directory
unchanged. -/
theorem claim_C3_idempotent (env env2 : Env) (d d2 : Str) (entries : List Str)
    (hdir : env.isDir (pathJoinUp env.dirname d) = true)
    (hlist : env.listing (pathJoinUp env.dirname d) = Except.ok entries)
    (hok : ∀ k, env.renameFails k = false)
    (hdir2 : env2.isDir (pathJoinUp env2.dirname d2) = true)
    (hlist2 : env2.listing (pathJoinUp env2.dirname d2) =
      Except.ok ((runRenameProcess env d).finalNames)) :
    (∀ (rb : Nat → Nat) (f : Str),
      isUUID (parseName (getNewFilename rb (extname f))) = true) ∧
    (runRenameProcess env2 d2).attempts = [] ∧
    (runRenameProcess env2 d2).done = 0 ∧
    (runRenameProcess env2 d2).finalNames =
      (runRenameProcess env d).finalNames := by
  have hrun1 := runRenameProcess_listing env d entries hdir hlist
  have hall : ∀ g ∈ (runRenameProcess env d).finalNames,
      isUUID (parseName g) = true := by
    rw [hrun1]
    exact renameLoop_final_uuid env.rng env.renameFails hok entries 0
  have hrun2 := runRenameProcess_listing env2 d2 _ hdir2 hlist2
  have hloop2 := renameLoop_all_skip env2.rng env2.renameFails
    ((runRenameProcess env d).finalNames) 0 hall
  refine ⟨fun rb f => isUUID_parseName_getNewFilename rb f, ?_, ?_, ?_⟩
  · rw [hrun2]
    simp [hloop2]
  · rw [hrun2]
    simp [hloop2]
  · rw [hrun2]
    simp [hloop2]

/-- Concrete environment for the first run of the C3 witness. -/
def envC3 : Env :=
  { dirname := ["app".data, "dist".data],
    isDir := fun _ => true,
    listing := fun _ => Except.ok ["photo.jpg".data],
    rng := fun _ _ => 7,
    renameFails := fun _ => false }

/-- Concrete environment for the second run of the C3 witness: its listing
is the first run's final directory contents. -/
def envC3b : Env :=
  { dirname := ["app".data, "dist".data],
    isDir := fun _ => true,
    listing := fun _ =>
      Except.ok ((runRenameProcess envC3 ("files".data)).finalNames),
    rng := fun _ _ => 9,
    renameFails := fun _ => false }

/-- C3 instantiated at a concrete one-entry directory and its re-run. -/
theorem claim_C3_witness :
    (∀ (rb : Nat → Nat) (f : Str),
      isUUID (parseName (getNewFilename rb (extname f))) = true) ∧
    (runRenameProcess envC3b ("files".data)).attempts = [] ∧
    (runRenameProcess envC3b ("files".data)).done = 0 ∧
    (runRenameProcess envC3b ("files".data)).finalNames =
      (runRenameProcess envC3 ("files".data)).finalNames :=
  claim_C3_idempotent envC3 envC3b ("files".data) ("files".data) _
    rfl rfl (fun _ => rfl) rfl rfl

/-- C4: When the target does not resolve to an existing directory, the
operation reports the precondition failure and returns early and normally:
no listing is requested, no rename is attempted, the counters stay zero,
and no error escalates to the caller. -/
theorem claim_C4_missing_directory (env : Env) (d : Str)
    (h : env.isDir (pathJoinUp env.dirname d) = false) :
    renameProcess env d = Except.ok
      { directoryPath := pathJoinUp env.dirname d, earlyReturn := true,
        listingRequested := false, outerCaught := false,
        total := 0, done := 0, attempts := [], failed := [],
        finalNames := [] } :=
  renameProcess_missing env d h

/-- Concrete environment for the C4 witness: the stat check fails
everywhere. -/
def envC4 : Env :=
  { dirname := ["app".data, "dist".data],
    isDir := fun _ => false,
    listing := fun _ => Except.ok [],
    rng := fun _ _ => 0,
    renameFails := fun _ => false }

/-- C4 instantiated at a concrete missing directory. -/
theorem claim_C4_witness :
    renameProcess envC4 ("files".data) = Except.ok
      { directoryPath := pathJoinUp envC4.dirname ("files".data),
        earlyReturn := true, listingRequested := false, outerCaught := false,
        total := 0, done := 0, attempts := [], failed := [],
        finalNames := [] } :=
  claim_C4_missing_directory envC4 ("files".data) rfl

/-- Concrete environment whose listing always fails. -/
def envC5 : Env :=
  { dirname := ["app".data, "dist".data],
    isDir := fun _ => true,
    listing := fun _ => Except.error ("EACCES".data),
    rng := fun _ _ => 0,
    renameFails := fun _ => false }

/-- C5 counterexample: at a concrete failing listing, `renameProcess`
returns `Except.ok` — the re-raised listing error is caught by the outer
handler inside the operation and does not propagate out of it — while the
batch is indeed aborted with no attempts. -/
theorem claim_C5_counterexample :
    renameProcess envC5 ("files".data) = Except.ok
      { directoryPath := ["app".data, "files".data], earlyReturn := false,
        listingRequested := true, outerCaught := true,
        total := 0, done := 0, attempts := [], failed := [],
        finalNames := [] } := by
  rfl

/-- C5 (amended): a listing failure is reported and re-raised out of the
listing helper `getFiles` to `renameProcess`; the batch aborts with no
rename attempted; the outer handler of `renameProcess` catches the error
and the operation returns normally, so no error propagates to the
operation's caller. -/
theorem claim_C5_listing_failure (env : Env) (d : Str) (e : Str)
    (hdir : env.isDir (pathJoinUp env.dirname d) = true)
    (hlist : env.listing (pathJoinUp env.dirname d) = Except.error e) :
    getFiles env (pathJoinUp env.dirname d) = Except.error e ∧
    renameProcess env d = Except.ok
      { directoryPath := pathJoinUp env.dirname d, earlyReturn := false,
        listingRequested := true, outerCaught := true,
        total := 0, done := 0, attempts := [], failed := [],
        finalNames := [] } :=
  ⟨getFiles_error env _ e hlist, renameProcess_listing_error env d e hdir hlist⟩

/-- C5 (amended) instantiated at the concrete failing listing. -/
theorem claim_C5_witness :
    getFiles envC5 (pathJoinUp envC5.dirname ("files".data)) =
      Except.error ("EACCES".data) ∧
    renameProcess envC5 ("files".data) = Except.ok
      { directoryPath := pathJoinUp envC5.dirname ("files".data),
        earlyReturn := false, listingRequested := true, outerCaught := true,
        total := 0, done := 0, attempts := [], failed := [],
        finalNames := [] } :=
  claim_C5_listing_failure envC5 ("files".data) ("EACCES".data) rfl rfl

/-- C6: Whatever the injected failures, the attempted entries are exactly
the non-matching entries of the snapshot, once each and in listing order
(so one entry's failure never suppresses a later attempt), and the done
counter counts exactly the attempts that did not fail — never skips or
failures. -/
theorem claim_C6_failure_isolation (env : Env) (d : Str) (entries : List Str)
    (hdir : env.isDir (pathJoinUp env.dirname d) = true)
    (hlist : env.listing (pathJoinUp env.dirname d) = Except.ok entries) :
    (runRenameProcess env d).attempts =
      entries.filter (fun f => !(isUUID (parseName f))) ∧
    (runRenameProcess env d).done + (runRenameProcess env d).failed.length =
      (runRenameProcess env d).attempts.length ∧
    (∀ f ∈ (runRenameProcess env d).failed,
      f ∈ (runRenameProcess env d).attempts) := by
  have hrun := runRenameProcess_listing env d entries hdir hlist
  refine ⟨?_, ?_, ?_⟩
  · rw [hrun]
    exact renameLoop_attempts _ _ entries 0
  · rw [hrun]
    exact renameLoop_done_failed _ _ entries 0
  · rw [hrun]
    exact renameLoop_failed_subset _ _ entries 0

/-- Concrete environment for the C6 witness: three plain entries and an
injected failure on the second rename attempt. -/
def envC6 : Env :=
  { dirname := ["app".data, "dist".data],
    isDir := fun _ => true,
    listing := fun _ =>
      Except.ok ["a.txt".data, "b.txt".data, "c.txt".data],
    rng := fun _ _ => 3,
    renameFails := fun k => k == 1 }

/-- C6 instantiated at a concrete directory with one injected failure. -/
theorem claim_C6_witness :
    (runRenameProcess envC6 ("files".data)).attempts =
      (["a.txt".data, "b.txt".data, "c.txt".data]).filter
        (fun f => !(isUUID (parseName f))) ∧
    (runRenameProcess envC6 ("files".data)).done +
        (runRenameProcess envC6 ("files".data)).failed.length =
      (runRenameProcess envC6 ("files".data)).attempts.length ∧
    (∀ f ∈ (runRenameProcess envC6 ("files".data)).failed,
      f ∈ (runRenameProcess envC6 ("files".data)).attempts) :=
  claim_C6_failure_isolation envC6 ("files".data) _ rfl rfl

/-- C7: The identifier-recognition predicate accepts exactly the
36-character hexadecimal strings (either case anywhere, no version or
variant restriction) in 8-4-4-4-12 grouping and rejects every other
string; in particular an accepted string has length exactly 36, so a
string of any other length or grouping — including one merely containing
an identifier as a proper substring — is rejected. -/
theorem claim_C7_recognizer (s : Str) :
    (isUUID s = true ↔ specIdentifier s) ∧
    (isUUID s = true → s.length = 36) :=
  ⟨isUUID_iff_specIdentifier s,
    fun h => specIdentifier_length s ((isUUID_iff_specIdentifier s).mp h)⟩

/-- C8: On an existing directory, `createEmptyFiles` creates exactly `n`
files named `0<ext>` through `(n-1)<ext>`, each with a single-space body;
on a missing directory it reports the condition and creates nothing. -/
theorem claim_C8_create_empty_files (isDir : FsPath → Bool) (p : FsPath)
    (n : Nat) (ext : Str) :
    (isDir p = true →
      (createEmptyFiles isDir p n ext).created =
        (List.range n).map (fun i => ((Nat.repr i).data ++ ext, [' '])) ∧
      (createEmptyFiles isDir p n ext).created.length = n ∧
      (createEmptyFiles isDir p n ext).reportedMissing = false) ∧
    (isDir p = false →
      createEmptyFiles isDir p n ext =
        { created := [], reportedMissing := true }) := by
  constructor
  · intro h
    have hred : createEmptyFiles isDir p n ext =
        { created := createFilesFrom ext 0 n, reportedMissing := false } := by
      unfold createEmptyFiles
      rw [h]
      simp
    rw [hred, createFilesFrom_eq ext n 0]
    simp
  · intro h
    unfold createEmptyFiles
    rw [h]
    simp

/-- C9: The zero-argument entry point runs the processor on the fixed
directory name `files`, and the operation resolves its directory-name
argument against the program's own location one level up — the target path
is always the parent of `dirname` extended with the given name, never the
argument taken as an absolute path. -/
theorem claim_C9_entry_point (env : Env) (d : Str) :
    startRenameFilesService env = renameProcess env ("files".data) ∧
    (runRenameProcess env d).directoryPath = env.dirname.dropLast ++ [d] :=
  ⟨rfl, runRenameProcess_directoryPath env d⟩

/-- C10: A leading-dot entry with no further dot (such as `.gitignore`)
has empty extracted extension and itself as base name; such a name never
matches the identifier pattern, so the loop renames it, and the new name
is the bare identifier with no extension — the leading-dot form is not
preserved. -/
theorem claim_C10_leading_dot (t : Str) (h : '.' ∉ t) :
    extname ('.' :: t) = [] ∧
    parseName ('.' :: t) = '.' :: t ∧
    isUUID (parseName ('.' :: t)) = false ∧
    (∀ rb : Nat → Nat, getNewFilename rb (extname ('.' :: t)) = uuidV4 rb) ∧
    (∀ (rng : Nat → Nat → Nat) (fail : Nat → Bool) (k : Nat),
      fail k = false →
      (renameLoop rng fail k ['.' :: t]).finalNames = [uuidV4 (rng k)]) := by
  have hsplit : splitOnLastDot ('.' :: t) = some ([], t) := by
    simp only [splitOnLastDot]
    rw [(splitOnLastDot_eq_none_iff t).mpr h]
    simp
  have hext : extname ('.' :: t) = [] := by
    unfold extname
    rw [hsplit]
    simp
  have hname : parseName ('.' :: t) = '.' :: t := by
    unfold parseName
    rw [hext]
    simp
  have hdot : isHexDigit '.' = false := by decide
  have h8 : hexRun 8 ('.' :: t) = none := by
    rw [show (8 : Nat) = 7 + 1 from rfl]
    simp [hexRun, hdot]
  have huu : isUUID (parseName ('.' :: t)) = false := by
    rw [hname]
    unfold isUUID
    simp [h8]
  refine ⟨hext, hname, huu, ?_, ?_⟩
  · intro rb
    rw [hext]
    simp [getNewFilename]
  · intro rng fail k hk
    simp [renameLoop, huu, hk, getNewFilename, hext]

/-- C10 instantiated at the concrete entry `.gitignore`. -/
theorem claim_C10_witness :
    extname ('.' :: "gitignore".data) = [] ∧
    parseName ('.' :: "gitignore".data) = '.' :: "gitignore".data ∧
    isUUID (parseName ('.' :: "gitignore".data)) = false ∧
    (∀ rb : Nat → Nat,
      getNewFilename rb (extname ('.' :: "gitignore".data)) = uuidV4 rb) ∧
    (∀ (rng : Nat → Nat → Nat) (fail : Nat → Bool) (k : Nat),
      fail k = false →
      (renameLoop rng fail k ['.' :: "gitignore".data]).finalNames =
        [uuidV4 (rng k)]) :=
  claim_C10_leading_dot ("gitignore".data) (by decide)

example : isUUID ("a1b2c3d4-e5f6-47a8-89b0-c1d2e3f4a5b6".data) = true := by decide
example : isUUID ("a1b2c3d4-e5f6-47a8-89b0-c1d2e3f4a5b".data) = false := by decide
example : isUUID ("photo.jpg".data) = false := by decide
example : extname ("report".data) = [] := by decide
example : extname ("a.txt".data) = ('.' :: "txt".data) := by decide
example : extname (".gitignore".data) = [] := by decide
example : parseName (".gitignore".data) = (".gitignore".data) := by decide
example : parseName ("a.b.c".data) = ("a.b".data) := by decide
example : uuidV4 (fun _ => 0) = ("00000000-0000-4000-8000-000000000000".data) := by decide
example : (createFilesFrom ('.' :: "txt".data) 0 3).map Prod.fst =
    ["0.txt".data, "1.txt".data, "2.txt".data] := by decide

end RenameService
